import Mathlib

/-!
# Verification of the `pennylane-lightning-gpu` device-buffer and state-vector core

This development shallowly embeds the `DataBuffer` class of
`src/pennylane_lightning_gpu/src/util/DataBuffer.hpp` and (from the design
document, since the engine sources are not available) the bit-indexed
state-vector gate-application engine, and proves or refutes the frozen
behavioural claims about them.

Conventions of the embedding:
* device memory regions are `List α` values; the pointer state of a buffer is
  a `Storage α` (`null`, `indeterminate` for a default-initialized pointer
  member, or `alloc data` for a region of `data.length` elements);
* the fatal-abort macro `PL_ABORT_IF_NOT(cond, msg)` (defined in the
  repository's `cuda_helpers.hpp`, which is not among the available sources)
  aborts the process unless `cond` holds; fallible operations therefore
  return `Except String _`, `.error` marking the fatal abort;
* the ambient "currently active device" (`cudaGetDevice`) is passed as an
  explicit parameter, and the device-API calls an operation issues are
  returned as an explicit trace of `CudaCall`s;
* `this != &other` pointer-identity tests are passed as an explicit
  `distinct : Bool` flag.
-/

namespace LightningGPU

/-- Modelled from the spec: `DevTag` / *DeviceAffinity* (§2, §3) — the
immutable `{device id, stream id}` pair; `DevTag.hpp` is not among the
available sources.  Stream handles are opaque; we represent them as `Int`. -/
structure DevTag where
  device : Int
  stream : Int
deriving DecidableEq, Repr

/-- The pointer state of a `DataBuffer`'s `gpu_buffer_` member: a null
pointer, a default-initialized (indeterminate) pointer, or a valid device
allocation holding the given elements. -/
inductive Storage (α : Type) where
  | null
  | indeterminate
  | alloc (data : List α)
deriving DecidableEq, Repr

/-- `DataBuffer<GPUDataT>` (DataBuffer.hpp, lines 15–188): element count,
device/stream tag, and device storage. -/
structure DataBuffer (α : Type) where
  length_ : Nat
  dev_tag_ : DevTag
  gpu_buffer_ : Storage α
deriving DecidableEq, Repr

/-- A device-API call issued by a buffer operation.  Memcpy calls record the
number of `GPUDataT` elements transferred (the byte count divided by
`sizeof(GPUDataT)`); `memcpyAsync` is the variant enqueued on the buffer's
stream. -/
inductive CudaCall where
  | getDevice
  | memcpy (count : Nat)
  | memcpyAsync (count : Nat)
deriving DecidableEq, Repr

namespace DataBuffer

variable {α : Type}

/-- `getLength()` (line 100). -/
def getLength (b : DataBuffer α) : Nat := b.length_

/-- The elements currently held in device storage, as read through
`getData()`.  Reading a null or indeterminate pointer is invalid in the
source; the `[]` returned for those states is never inspected by any theorem
below (every such path aborts before the read). -/
def readData (b : DataBuffer α) : List α :=
  match b.gpu_buffer_ with
  | .alloc d => d
  | _ => []

/-- The constructors (lines 28–56): `DataBuffer(length, device_id, stream_id,
alloc_memory)`.  When `alloc_memory && length > 0`, `cudaMalloc` reserves
exactly `length` elements (their initial contents are unspecified; we use
`default`, and no theorem below reads them before they are overwritten).
Otherwise the member `gpu_buffer_` is never assigned, so the pointer is left
default-initialized, i.e. indeterminate. -/
def construct [Inhabited α] (length : Nat) (dev : DevTag)
    (alloc_memory : Bool) : DataBuffer α :=
  { length_ := length
    dev_tag_ := dev
    gpu_buffer_ :=
      if alloc_memory && decide (0 < length) then .alloc (List.replicate length default)
      else .indeterminate }

/-- `CopyGpuDataToGpu(gpu_in, length, async)` (lines 115–130).  The guard is
the source's `PL_ABORT_IF_NOT(getLength() < length, "Sizes do not match for
GPU data. ...")`: the call proceeds exactly when `getLength() < length`
holds, and otherwise aborts fatally.  On success `cudaMemcpy` transfers
`sizeof(GPUDataT) * getLength()` bytes — `getLength()` elements — from
`gpu_in` into the buffer. -/
def CopyGpuDataToGpu (b : DataBuffer α) (gpu_in : List α) (length : Nat)
    (async : Bool) : Except String (DataBuffer α × List CudaCall) :=
  if b.getLength < length then
    .ok ({ b with gpu_buffer_ := .alloc (gpu_in.take b.getLength) },
         [if async then .memcpyAsync b.getLength else .memcpy b.getLength])
  else
    .error "Sizes do not match for GPU data. Please ensure the source buffer is not larger than the destination buffer"

/-- `CopyHostDataToGpu(host_in, length, async)` (lines 144–160).  The guard
is the source's `PL_ABORT_IF_NOT((getLength() * sizeof(GPUDataT)) < (length *
sizeof(HostDataT)), ...)`, with the two element byte-sizes passed here
explicitly as `sizeG` and `sizeH`.  On success `cudaMemcpy` transfers
`sizeof(GPUDataT) * getLength()` bytes — `getLength()` device elements —
from the host region (the element-wise reading of the transferred bytes is
exact for `HostDataT = GPUDataT`, the template default, which is the only
instantiation any claim exercises). -/
def CopyHostDataToGpu (sizeG sizeH : Nat) (b : DataBuffer α)
    (host_in : List α) (length : Nat) (async : Bool) :
    Except String (DataBuffer α × List CudaCall) :=
  if b.getLength * sizeG < length * sizeH then
    .ok ({ b with gpu_buffer_ := .alloc (host_in.take b.getLength) },
         [if async then .memcpyAsync b.getLength else .memcpy b.getLength])
  else
    .error "Sizes do not match for host & GPU data. Please ensure the source buffer is not larger than the destination buffer"

/-- `CopyGpuDataToHost(host_out, length, async)` (lines 166–182).  The guard
is the source's `PL_ABORT_IF_NOT((getLength() * sizeof(GPUDataT)) > (length *
sizeof(HostDataT)), ...)`.  On success `cudaMemcpy` transfers
`sizeof(GPUDataT) * getLength()` bytes — `getLength()` device elements —
from the buffer into the host region, whose updated contents are returned. -/
def CopyGpuDataToHost (sizeG sizeH : Nat) (b : DataBuffer α)
    (host_out : List α) (length : Nat) (async : Bool) :
    Except String (List α × List CudaCall) :=
  if b.getLength * sizeG > length * sizeH then
    .ok (b.readData.take b.getLength ++ host_out.drop b.getLength,
         [if async then .memcpyAsync b.getLength else .memcpy b.getLength])
  else
    .error "Sizes do not match for host & GPU data. Please ensure the source buffer is not larger than the destination buffer"

/-- Copy-assignment `operator=(const DataBuffer&)` (lines 60–70).  `distinct`
is the `this != &other` test; `local_dev` is the result of the
`cudaGetDevice` query.  When the operands are distinct the destination's
length is set, its tag is rebound to `{local_dev, other's stream}`, and the
contents are brought over through `CopyGpuDataToGpu(other.gpu_buffer_,
other.length_)`. -/
def copyAssign (self other : DataBuffer α) (distinct : Bool)
    (local_dev : Int) : Except String (DataBuffer α × List CudaCall) :=
  if distinct then
    let self1 : DataBuffer α :=
      { self with
        length_ := other.length_
        dev_tag_ := ⟨local_dev, other.dev_tag_.stream⟩ }
    match self1.CopyGpuDataToGpu other.readData other.length_ false with
    | .ok (self2, ops) => .ok (self2, .getDevice :: ops)
    | .error e => .error e
  else
    .ok (self, [])

/-- Move-assignment `operator=(DataBuffer&&)` (lines 72–90), returning the
updated destination and source.  `distinct` is the `this != &other` test;
`local_dev` the `cudaGetDevice` result.  Mirroring the source statement by
statement: `length_ = other.length_`; on the same-device branch `dev_tag_ =
std::move(other.dev_tag_)` and `gpu_buffer_ = other.gpu_buffer_`; on the
cross-device branch the tag is rebound, `CopyGpuDataToGpu(other.gpu_buffer_,
other.length_)` runs, and `other.dev_tag_ = {}` resets the source's tag;
after the branch, `other.length_ = 0` and then `gpu_buffer_ = nullptr` —
the last assignment targets `this` (it is unqualified in the source), so it
nulls the destination's pointer, not the source's. -/
def moveAssign (self other : DataBuffer α) (distinct : Bool)
    (local_dev : Int) :
    Except String (DataBuffer α × DataBuffer α × List CudaCall) :=
  if distinct then
    if local_dev = other.dev_tag_.device then
      let self1 : DataBuffer α :=
        { length_ := other.length_
          dev_tag_ := other.dev_tag_
          gpu_buffer_ := other.gpu_buffer_ }
      .ok ({ self1 with gpu_buffer_ := .null },
           { other with length_ := 0 },
           [.getDevice])
    else
      let self1 : DataBuffer α :=
        { self with
          length_ := other.length_
          dev_tag_ := ⟨local_dev, other.dev_tag_.stream⟩ }
      match self1.CopyGpuDataToGpu other.readData other.length_ false with
      | .ok (self2, ops) =>
          .ok ({ self2 with gpu_buffer_ := .null },
               { other with dev_tag_ := ⟨0, 0⟩, length_ := 0 },
               .getDevice :: ops)
      | .error e => .error e
  else
    .ok (self, other, [])

/-- The storage invariant asserted by the claims: the pointer is either null
or a valid region of exactly `getLength()` elements — in particular never an
indeterminate pointer. -/
def storageOK (b : DataBuffer α) : Prop :=
  b.gpu_buffer_ = .null ∨
    ∃ d, b.gpu_buffer_ = .alloc d ∧ d.length = b.getLength

instance (b : DataBuffer α) [DecidableEq α] : Decidable b.storageOK := by
  unfold storageOK
  cases h : b.gpu_buffer_ with
  | null => exact .isTrue (.inl rfl)
  | indeterminate =>
      refine .isFalse ?_
      rintro (hc | ⟨d, hc, -⟩) <;> simp_all
  | alloc d =>
      refine if hd : d.length = b.getLength then .isTrue (.inr ⟨d, rfl, hd⟩)
        else .isFalse ?_
      rintro (hc | ⟨d', hc, hl⟩) <;> simp_all

/-- The trace of device-API calls of a copy primitive's outcome (empty when
the call aborted before reaching the device). -/
def opsOf {β : Type} : Except String (β × List CudaCall) → List CudaCall
  | .ok (_, ops) => ops
  | .error _ => []

end DataBuffer

open DataBuffer

/-- C1: the claim states that a copy primitive aborts *iff* the source is
larger than the destination capacity, and proceeds when the capacity is
sufficient.  The code does the opposite: `CopyGpuDataToGpu` on a destination
of capacity 4 with a source of length 2 aborts (first conjunct), while a
destination of capacity 2 with a source of length 4 proceeds (second
conjunct); likewise for `CopyHostDataToGpu` with equal element sizes (third
and fourth conjuncts).  The guard `PL_ABORT_IF_NOT(getLength() < length)`
has its comparison inverted relative to its own error message. -/
theorem C1_copy_size_check_inverted :
    ((DataBuffer.construct (α := Int) 4 ⟨0, 0⟩ true).CopyGpuDataToGpu
        [5, 7] 2 false) =
      .error "Sizes do not match for GPU data. Please ensure the source buffer is not larger than the destination buffer"
  ∧ ((DataBuffer.construct (α := Int) 2 ⟨0, 0⟩ true).CopyGpuDataToGpu
        [1, 2, 3, 4] 4 false) =
      .ok (⟨2, ⟨0, 0⟩, .alloc [1, 2]⟩, [.memcpy 2])
  ∧ ((DataBuffer.construct (α := Int) 4 ⟨0, 0⟩ true).CopyHostDataToGpu
        16 16 [5, 7] 2 false) =
      .error "Sizes do not match for host & GPU data. Please ensure the source buffer is not larger than the destination buffer"
  ∧ ((DataBuffer.construct (α := Int) 2 ⟨0, 0⟩ true).CopyHostDataToGpu
        16 16 [1, 2, 3, 4] 4 false) =
      .ok (⟨2, ⟨0, 0⟩, .alloc [1, 2]⟩, [.memcpy 2]) := by
  refine ⟨rfl, rfl, rfl, rfl⟩

/-- C2: move-assigning a source on the currently active device (device 0
active, source on device 0, length 2, holding `[3, 4]`) into a distinct
destination.  The claim says the destination takes ownership of the source's
storage and the source is left with length 0 and null storage.  Evaluating
the code: the destination ends with **null** storage (the trailing
`gpu_buffer_ = nullptr;` in the source targets `this`, not `other`) while
the source keeps its allocation `[3, 4]` (only its length is zeroed). -/
theorem C2_move_assign_nulls_destination :
    DataBuffer.moveAssign (α := Int)
        ⟨1, ⟨0, 0⟩, .alloc [9]⟩ ⟨2, ⟨0, 1⟩, .alloc [3, 4]⟩ true 0 =
      .ok (⟨2, ⟨0, 1⟩, .null⟩, ⟨0, ⟨0, 1⟩, .alloc [3, 4]⟩, [.getDevice]) := by
  rfl

/-- C3: the claim states that a host vector of length `L` copied into a
buffer of length `L` and read back returns the original values with neither
copy aborting.  In the code both equal-size copies abort:
`CopyHostDataToGpu` requires `dstBytes < srcBytes` strictly and
`CopyGpuDataToHost` requires `gpuBytes > hostBytes` strictly, so with
`L = 2` (element size 16 on both sides) each returns the size-mismatch
abort. -/
theorem C3_roundtrip_equal_sizes_aborts :
    ((DataBuffer.construct (α := Int) 2 ⟨0, 0⟩ true).CopyHostDataToGpu
        16 16 [5, 7] 2 false) =
      .error "Sizes do not match for host & GPU data. Please ensure the source buffer is not larger than the destination buffer"
  ∧ ((⟨2, ⟨0, 0⟩, .alloc [5, 7]⟩ : DataBuffer Int).CopyGpuDataToHost
        16 16 [0, 0] 2 false) =
      .error "Sizes do not match for host & GPU data. Please ensure the source buffer is not larger than the destination buffer" := by
  exact ⟨rfl, rfl⟩

/-- C4: the claim states that copy-assignment between distinct buffers
completes, rebinding the destination to the active device and copying the
contents.  In the code it *always* aborts: after `length_ = other.length_`
the inner `CopyGpuDataToGpu(other.gpu_buffer_, other.length_)` checks
`getLength() < length`, i.e. `other.length_ < other.length_`, which never
holds — so for every pair of distinct operands and every active device the
assignment is a fatal abort. -/
theorem C4_copy_assign_always_aborts (self other : DataBuffer Int)
    (dev : Int) :
    DataBuffer.copyAssign self other true dev =
      .error "Sizes do not match for GPU data. Please ensure the source buffer is not larger than the destination buffer" := by
  simp [DataBuffer.copyAssign, DataBuffer.CopyGpuDataToGpu,
    DataBuffer.getLength]

/-- C5: the claim states that the storage pointer is always either null or a
full allocation of `getLength()` elements, never indeterminate.  But
constructing a buffer with `alloc_memory = false` never assigns the member
`gpu_buffer_` (the source has no default initializer for it and the
destructor unconditionally `cudaFree`s it), so the pointer is left
default-initialized — indeterminate — violating the invariant. -/
theorem C5_deferred_alloc_pointer_indeterminate :
    (DataBuffer.construct (α := Int) 4 ⟨0, 0⟩ false).gpu_buffer_ =
        .indeterminate
  ∧ ¬ (DataBuffer.construct (α := Int) 4 ⟨0, 0⟩ false).storageOK := by
  exact ⟨by decide, by decide⟩

/-- C9: for each copy primitive whose precondition check passes, exactly one
memcpy is issued and it transfers `getLength()` elements of the
`DataBuffer` — the `length` argument describing the other side appears only
in the precondition and never determines the transfer size. -/
theorem C9_transfer_size_is_getLength {α : Type} (b : DataBuffer α)
    (src host : List α) (len sizeG sizeH : Nat) (async : Bool) :
    (b.getLength < len →
      opsOf (b.CopyGpuDataToGpu src len async) =
        [if async then .memcpyAsync b.getLength else .memcpy b.getLength])
  ∧ (b.getLength * sizeG < len * sizeH →
      opsOf (b.CopyHostDataToGpu sizeG sizeH host len async) =
        [if async then .memcpyAsync b.getLength else .memcpy b.getLength])
  ∧ (b.getLength * sizeG > len * sizeH →
      opsOf (b.CopyGpuDataToHost sizeG sizeH host len async) =
        [if async then .memcpyAsync b.getLength else .memcpy b.getLength]) := by
  refine ⟨fun h => ?_, fun h => ?_, fun h => ?_⟩ <;>
    simp [DataBuffer.CopyGpuDataToGpu, DataBuffer.CopyHostDataToGpu,
      DataBuffer.CopyGpuDataToHost, opsOf, h]

/-- Concrete instantiation of `C9_transfer_size_is_getLength`: a buffer of
length 2 (so every transfer moves 2 elements) exercised on all three
primitives with passing precondition checks. -/
theorem C9_transfer_size_witness :
    ((2 < 3
      ∧ opsOf ((⟨2, ⟨0, 0⟩, .alloc [1, 2]⟩ : DataBuffer Int).CopyGpuDataToGpu
          [7, 8, 9] 3 false) = [CudaCall.memcpy 2])
  ∧ (2 * 1 < 3 * 1
      ∧ opsOf ((⟨2, ⟨0, 0⟩, .alloc [1, 2]⟩ : DataBuffer Int).CopyHostDataToGpu
          1 1 [7, 8, 9] 3 false) = [CudaCall.memcpy 2])
  ∧ (2 * 1 > 1 * 1
      ∧ opsOf ((⟨2, ⟨0, 0⟩, .alloc [1, 2]⟩ : DataBuffer Int).CopyGpuDataToHost
          1 1 [9] 1 false) = [CudaCall.memcpy 2])) := by
  refine ⟨⟨by decide, ?_⟩, ⟨by decide, ?_⟩, ⟨by decide, ?_⟩⟩
  · exact (C9_transfer_size_is_getLength ⟨2, ⟨0, 0⟩, .alloc [1, 2]⟩
      [7, 8, 9] [7, 8, 9] 3 1 1 false).1 (by decide)
  · exact (C9_transfer_size_is_getLength ⟨2, ⟨0, 0⟩, .alloc [1, 2]⟩
      [7, 8, 9] [7, 8, 9] 3 1 1 false).2.1 (by decide)
  · exact (C9_transfer_size_is_getLength ⟨2, ⟨0, 0⟩, .alloc [1, 2]⟩
      [9] [9] 1 1 1 false).2.2 (by decide)

/-! ## The state-vector engine

The engine sources (`StateVectorCudaRaw.hpp`, `cuGateCache.hpp`,
`cuGates_host.hpp`) are not among the available files — only their tests
are — so the definitions in this section are modelled from the design
document: states are amplitude vectors indexed by basis bitstrings, and a
gate on wire set `W` replaces each group of amplitudes (obtained by fixing
the bits outside `W`) by the gate matrix times that group (§4.4).  The
test expectations in `Test_StateVectorCudaRaw_Param.cpp` fix the index
convention: wire `w` of an `n`-qubit state addresses bit `n - 1 - w` of the
basis index (wire 0 is the most significant bit), and the first-listed wire
is the most significant bit of the within-group sub-index. -/

namespace Engine

open Complex

/-- Modelled from the spec: the basis-index bit position addressed by wire
`w` of an `n`-qubit state (§4.4 and the RZ/PhaseShift test expectations:
wire 0 is the most significant bit). -/
def wireBit (n w : Nat) : Nat := n - 1 - w

/-- Modelled from the spec: the bit-indexed apply for a one-wire gate
(§4.4, `k = 1`).  Each index `i` is paired with its partner `i ^^^ 2 ^ b`
differing at the wire's bit `b`; the pair, read `(bit = 0, bit = 1)`, is
replaced by the matrix times the pair. -/
noncomputable def apply1 (n w : Nat) (m : Fin 2 → Fin 2 → ℂ)
    (ψ : Nat → ℂ) : Nat → ℂ := fun i =>
  let b := wireBit n w
  if i.testBit b then m 1 0 * ψ (i ^^^ 2 ^ b) + m 1 1 * ψ i
  else m 0 0 * ψ i + m 0 1 * ψ (i ^^^ 2 ^ b)

/-- The within-group sub-index of basis index `i` for a two-wire gate on
bits `b1` (first-listed wire, most significant) and `b2`. -/
def subIdx2 (i b1 b2 : Nat) : Fin 4 :=
  ⟨(if i.testBit b1 then 2 else 0) + (if i.testBit b2 then 1 else 0), by
    split <;> split <;> omega⟩

/-- The basis index obtained from `i` by replacing the bits at `b1`, `b2`
(assumed distinct) with the two bits of the sub-index `c`. -/
def setSub2 (i b1 b2 : Nat) (c : Fin 4) : Nat :=
  i - (if i.testBit b1 then 2 ^ b1 else 0)
    - (if i.testBit b2 then 2 ^ b2 else 0)
    + c.val / 2 * 2 ^ b1 + c.val % 2 * 2 ^ b2

/-- Modelled from the spec: the bit-indexed apply for a two-wire gate
(§4.4, `k = 2`): amplitude `i` becomes row `subIdx2 i` of the matrix times
the group's amplitude vector. -/
noncomputable def apply2 (n w1 w2 : Nat) (m : Fin 4 → Fin 4 → ℂ)
    (ψ : Nat → ℂ) : Nat → ℂ := fun i =>
  ∑ c : Fin 4,
    m (subIdx2 i (wireBit n w1) (wireBit n w2)) c *
      ψ (setSub2 i (wireBit n w1) (wireBit n w2) c)

/-- Modelled from the spec: the PauliX matrix (§6 fixed gate table). -/
noncomputable def Xmat : Fin 2 → Fin 2 → ℂ
  | 0, 0 => 0 | 0, 1 => 1
  | 1, 0 => 1 | 1, 1 => 0

/-- Modelled from the spec: the PauliY matrix (§6 fixed gate table). -/
noncomputable def Ymat : Fin 2 → Fin 2 → ℂ
  | 0, 0 => 0 | 0, 1 => -Complex.I
  | 1, 0 => Complex.I | 1, 1 => 0

/-- Modelled from the spec: the PauliZ matrix (§6 fixed gate table). -/
noncomputable def Zmat : Fin 2 → Fin 2 → ℂ
  | 0, 0 => 1 | 0, 1 => 0
  | 1, 0 => 0 | 1, 1 => -1

/-- Modelled from the spec: the RX(θ) rotation matrix (§6 fixed gate
table; its `|0⟩` column is pinned by the test expectations
`[cos(θ/2), -i sin(θ/2)]`). -/
noncomputable def RXmat (θ : ℝ) : Fin 2 → Fin 2 → ℂ
  | 0, 0 => ((Real.cos (θ / 2) : ℝ) : ℂ)
  | 0, 1 => -Complex.I * ((Real.sin (θ / 2) : ℝ) : ℂ)
  | 1, 0 => -Complex.I * ((Real.sin (θ / 2) : ℝ) : ℂ)
  | 1, 1 => ((Real.cos (θ / 2) : ℝ) : ℂ)

/-- Conjugate transpose of a one-wire gate matrix — the spec's adjoint
semantics (§4.4: the adjoint of a gate is its exact conjugate
transpose). -/
noncomputable def dagger (m : Fin 2 → Fin 2 → ℂ) : Fin 2 → Fin 2 → ℂ :=
  fun r c => (starRingEnd ℂ) (m c r)

/-- Modelled from the spec: the ControlledPhaseShift(θ) two-wire matrix —
identity on the control-bit-0 block, phase `e^{iθ}` only on the
`|11⟩` entry (§4.4 controlled-gate structure, §6). -/
noncomputable def cphaseMat (θ : ℝ) : Fin 4 → Fin 4 → ℂ := fun r c =>
  if r.val = c.val then
    (if r.val = 3 then Complex.exp (θ * Complex.I) else 1)
  else 0

/-- Modelled from the spec: the fixed name → matrix generator table (§6),
restricted to the one-wire gates the verified properties mention; `none`
is the reportable unknown-name rejection (§7). -/
noncomputable def baseMatrix1 : String → List ℝ → Option (Fin 2 → Fin 2 → ℂ)
  | "PauliX", [] => some Xmat
  | "PauliY", [] => some Ymat
  | "PauliZ", [] => some Zmat
  | "RX", [θ] => some (RXmat θ)
  | _, _ => none

/-- Modelled from the spec: `applyOperation(name, wires, adjoint, params)`
for a one-wire named gate — resolve the matrix from the table, take its
conjugate transpose when `adjoint` is set, and dispatch the bit-indexed
apply (§4.3, §4.4). -/
noncomputable def applyOperation (n : Nat) (name : String) (w : Nat)
    (adj : Bool) (params : List ℝ) (ψ : Nat → ℂ) : Option (Nat → ℂ) :=
  (baseMatrix1 name params).map fun m =>
    apply1 n w (if adj then dagger m else m) ψ

/-- Modelled from the spec: the direct `applyRX(wires, adjoint, param)`
call — the same resolution without the string dispatch. -/
noncomputable def applyRX (n w : Nat) (adj : Bool) (θ : ℝ)
    (ψ : Nat → ℂ) : Nat → ℂ :=
  apply1 n w (if adj then dagger (RXmat θ) else RXmat θ) ψ

/-- Modelled from the spec: the engine's initial basis state — amplitude 1
at index 0, 0 elsewhere (§4.4 construction). -/
noncomputable def initState (_n : Nat) : Nat → ℂ := fun i =>
  if i = 0 then 1 else 0

/-- Modelled from the spec: the 3-qubit `|+++⟩` state — all 8 amplitudes
equal to `1 / (2√2)` (the `coef` of the ControlledPhaseShift test). -/
noncomputable def plus3 : Nat → ℂ := fun _ =>
  ((1 / (2 * Real.sqrt 2) : ℝ) : ℂ)

/-- 2×2 matrix product, row times column. -/
noncomputable def matMul2 (m2 m1 : Fin 2 → Fin 2 → ℂ) :
    Fin 2 → Fin 2 → ℂ := fun r c => ∑ k : Fin 2, m2 r k * m1 k c

/-- The explicit product matrix the `Apply XZ gate` test supplies
(`xz_gate = {0, 1, -1, 0}`), equal to `Z · X`. -/
noncomputable def XZmat : Fin 2 → Fin 2 → ℂ
  | 0, 0 => 0 | 0, 1 => 1
  | 1, 0 => -1 | 1, 1 => 0

/-! ### Sixth-order Taylor bounds for `Real.cos` and `Real.sin`

Mathlib's fourth-order `Real.cos_bound` / `Real.sin_bound` are too coarse
for the test tolerance `1e-7` at `θ/2 = 1/20`; the following sharper bounds
follow from `Complex.exp_bound` with six series terms. -/

theorem cos_partial_sum_six (x : ℝ) :
    (∑ m ∈ Finset.range 6, ((x : ℂ) * Complex.I) ^ m / m.factorial) +
      (∑ m ∈ Finset.range 6, (-(x : ℂ) * Complex.I) ^ m / m.factorial) =
    2 * (((1 - x ^ 2 / 2 + x ^ 4 / 24 : ℝ) : ℂ)) := by
  have h2 : (Complex.I) ^ 2 = -1 := Complex.I_sq
  simp only [Finset.sum_range_succ, Finset.sum_range_zero, Nat.factorial]
  push_cast
  linear_combination (x ^ 2 + x ^ 4 * (Complex.I ^ 2 - 1) / 12) * h2

theorem sin_partial_sum_six (x : ℝ) :
    ((∑ m ∈ Finset.range 6, (-(x : ℂ) * Complex.I) ^ m / m.factorial) -
      (∑ m ∈ Finset.range 6, ((x : ℂ) * Complex.I) ^ m / m.factorial)) *
        Complex.I =
    2 * (((x - x ^ 3 / 6 + x ^ 5 / 120 : ℝ) : ℂ)) := by
  have h2 : (Complex.I) ^ 2 = -1 := Complex.I_sq
  simp only [Finset.sum_range_succ, Finset.sum_range_zero, Nat.factorial]
  push_cast
  linear_combination (-2 * x - x ^ 3 * (Complex.I ^ 2 - 1) / 3 -
    x ^ 5 * (Complex.I ^ 4 - Complex.I ^ 2 + 1) / 60) * h2

theorem cos_sixth_bound {x : ℝ} (hx : |x| ≤ 1) :
    |Real.cos x - (1 - x ^ 2 / 2 + x ^ 4 / 24)| ≤ |x| ^ 6 * (7 / 4320) := by
  have habsx : Complex.abs ((x : ℂ) * Complex.I) = |x| := by
    rw [map_mul, Complex.abs_I, mul_one, Complex.abs_ofReal]
  have habsx' : Complex.abs (-(x : ℂ) * Complex.I) = |x| := by
    rw [neg_mul, map_neg_eq_map, map_mul, Complex.abs_I, mul_one,
      Complex.abs_ofReal]
  have hE1 := Complex.exp_bound (x := (x : ℂ) * Complex.I) (by rwa [habsx])
    (n := 6) (by norm_num)
  have hE2 := Complex.exp_bound (x := -(x : ℂ) * Complex.I) (by rwa [habsx'])
    (n := 6) (by norm_num)
  rw [habsx] at hE1
  rw [habsx'] at hE2
  have key : Complex.abs (Complex.cos (x : ℂ) -
      ((1 - x ^ 2 / 2 + x ^ 4 / 24 : ℝ) : ℂ)) ≤ |x| ^ 6 * (7 / 4320) := by
    have hAB : Complex.cos (x : ℂ) -
        ((1 - x ^ 2 / 2 + x ^ 4 / 24 : ℝ) : ℂ) =
        ((Complex.exp ((x : ℂ) * Complex.I) -
            ∑ m ∈ Finset.range 6, ((x : ℂ) * Complex.I) ^ m / m.factorial) +
          (Complex.exp (-(x : ℂ) * Complex.I) -
            ∑ m ∈ Finset.range 6,
              (-(x : ℂ) * Complex.I) ^ m / m.factorial)) / 2 := by
      have hcos : Complex.cos (x : ℂ) =
          (Complex.exp ((x : ℂ) * Complex.I) +
            Complex.exp (-(x : ℂ) * Complex.I)) / 2 := rfl
      rw [hcos]
      linear_combination (1 / 2 : ℂ) * cos_partial_sum_six x
    rw [hAB]
    calc Complex.abs (((Complex.exp ((x : ℂ) * Complex.I) -
            ∑ m ∈ Finset.range 6, ((x : ℂ) * Complex.I) ^ m / m.factorial) +
          (Complex.exp (-(x : ℂ) * Complex.I) -
            ∑ m ∈ Finset.range 6,
              (-(x : ℂ) * Complex.I) ^ m / m.factorial)) / 2)
        = Complex.abs ((Complex.exp ((x : ℂ) * Complex.I) -
            ∑ m ∈ Finset.range 6, ((x : ℂ) * Complex.I) ^ m / m.factorial) +
          (Complex.exp (-(x : ℂ) * Complex.I) -
            ∑ m ∈ Finset.range 6,
              (-(x : ℂ) * Complex.I) ^ m / m.factorial)) / 2 := by
          rw [map_div₀]; norm_num
      _ ≤ (Complex.abs (Complex.exp ((x : ℂ) * Complex.I) -
            ∑ m ∈ Finset.range 6, ((x : ℂ) * Complex.I) ^ m / m.factorial) +
          Complex.abs (Complex.exp (-(x : ℂ) * Complex.I) -
            ∑ m ∈ Finset.range 6,
              (-(x : ℂ) * Complex.I) ^ m / m.factorial)) / 2 := by
          gcongr
          exact Complex.abs.add_le _ _
      _ ≤ (|x| ^ 6 * ((Nat.succ 6 : ℝ) *
              ((Nat.factorial 6 : ℝ) * (6 : ℕ))⁻¹) +
          |x| ^ 6 * ((Nat.succ 6 : ℝ) *
              ((Nat.factorial 6 : ℝ) * (6 : ℕ))⁻¹)) / 2 := by
          gcongr
      _ ≤ |x| ^ 6 * (7 / 4320) := by
          norm_num [Nat.factorial]
  have hcast : ((Real.cos x - (1 - x ^ 2 / 2 + x ^ 4 / 24) : ℝ) : ℂ) =
      Complex.cos (x : ℂ) - ((1 - x ^ 2 / 2 + x ^ 4 / 24 : ℝ) : ℂ) := by
    push_cast [Complex.ofReal_cos]
    ring
  rw [← Complex.abs_ofReal, hcast]
  exact key

theorem sin_sixth_bound {x : ℝ} (hx : |x| ≤ 1) :
    |Real.sin x - (x - x ^ 3 / 6 + x ^ 5 / 120)| ≤ |x| ^ 6 * (7 / 4320) := by
  have habsx : Complex.abs ((x : ℂ) * Complex.I) = |x| := by
    rw [map_mul, Complex.abs_I, mul_one, Complex.abs_ofReal]
  have habsx' : Complex.abs (-(x : ℂ) * Complex.I) = |x| := by
    rw [neg_mul, map_neg_eq_map, map_mul, Complex.abs_I, mul_one,
      Complex.abs_ofReal]
  have hE1 := Complex.exp_bound (x := (x : ℂ) * Complex.I) (by rwa [habsx])
    (n := 6) (by norm_num)
  have hE2 := Complex.exp_bound (x := -(x : ℂ) * Complex.I) (by rwa [habsx'])
    (n := 6) (by norm_num)
  rw [habsx] at hE1
  rw [habsx'] at hE2
  have key : Complex.abs (Complex.sin (x : ℂ) -
      ((x - x ^ 3 / 6 + x ^ 5 / 120 : ℝ) : ℂ)) ≤ |x| ^ 6 * (7 / 4320) := by
    have hAB : Complex.sin (x : ℂ) -
        ((x - x ^ 3 / 6 + x ^ 5 / 120 : ℝ) : ℂ) =
        ((Complex.exp (-(x : ℂ) * Complex.I) -
            ∑ m ∈ Finset.range 6,
              (-(x : ℂ) * Complex.I) ^ m / m.factorial) -
          (Complex.exp ((x : ℂ) * Complex.I) -
            ∑ m ∈ Finset.range 6, ((x : ℂ) * Complex.I) ^ m / m.factorial)) *
          Complex.I / 2 := by
      have hsin : Complex.sin (x : ℂ) =
          (Complex.exp (-(x : ℂ) * Complex.I) -
            Complex.exp ((x : ℂ) * Complex.I)) * Complex.I / 2 := rfl
      rw [hsin]
      linear_combination (1 / 2 : ℂ) * sin_partial_sum_six x
    rw [hAB]
    calc Complex.abs (((Complex.exp (-(x : ℂ) * Complex.I) -
            ∑ m ∈ Finset.range 6,
              (-(x : ℂ) * Complex.I) ^ m / m.factorial) -
          (Complex.exp ((x : ℂ) * Complex.I) -
            ∑ m ∈ Finset.range 6, ((x : ℂ) * Complex.I) ^ m / m.factorial)) *
          Complex.I / 2)
        = Complex.abs ((Complex.exp (-(x : ℂ) * Complex.I) -
            ∑ m ∈ Finset.range 6,
              (-(x : ℂ) * Complex.I) ^ m / m.factorial) -
          (Complex.exp ((x : ℂ) * Complex.I) -
            ∑ m ∈ Finset.range 6,
              ((x : ℂ) * Complex.I) ^ m / m.factorial)) / 2 := by
          rw [map_div₀, map_mul, Complex.abs_I, mul_one]; norm_num
      _ ≤ (Complex.abs (Complex.exp (-(x : ℂ) * Complex.I) -
            ∑ m ∈ Finset.range 6,
              (-(x : ℂ) * Complex.I) ^ m / m.factorial) +
          Complex.abs (Complex.exp ((x : ℂ) * Complex.I) -
            ∑ m ∈ Finset.range 6,
              ((x : ℂ) * Complex.I) ^ m / m.factorial)) / 2 := by
          gcongr
          rw [sub_eq_add_neg]
          refine le_trans (Complex.abs.add_le _ _) ?_
          rw [map_neg_eq_map]
      _ ≤ (|x| ^ 6 * ((Nat.succ 6 : ℝ) *
              ((Nat.factorial 6 : ℝ) * (6 : ℕ))⁻¹) +
          |x| ^ 6 * ((Nat.succ 6 : ℝ) *
              ((Nat.factorial 6 : ℝ) * (6 : ℕ))⁻¹)) / 2 := by
          gcongr
      _ ≤ |x| ^ 6 * (7 / 4320) := by
          norm_num [Nat.factorial]
  have hcast : ((Real.sin x - (x - x ^ 3 / 6 + x ^ 5 / 120) : ℝ) : ℂ) =
      Complex.sin (x : ℂ) - ((x - x ^ 3 / 6 + x ^ 5 / 120 : ℝ) : ℂ) := by
    push_cast [Complex.ofReal_sin]
    ring
  rw [← Complex.abs_ofReal, hcast]
  exact key

/-- `cos(1/20)` agrees with the test's expected amplitude to `1e-7`. -/
theorem cos_one_twentieth_bound :
    |Real.cos (1 / 20) - 0.9987502603949663| ≤ 1e-7 := by
  have hb := cos_sixth_bound (x := (1 / 20 : ℝ))
    (by rw [abs_of_pos (by norm_num : (0 : ℝ) < 1 / 20)]; norm_num)
  rw [abs_of_pos (by norm_num : (0 : ℝ) < 1 / 20)] at hb
  have h2 : |(1 - (1 / 20 : ℝ) ^ 2 / 2 + (1 / 20) ^ 4 / 24) -
      0.9987502603949663| ≤ 3 / 10 ^ 11 :=
    abs_le.mpr (by constructor <;> norm_num)
  calc |Real.cos (1 / 20) - 0.9987502603949663|
      ≤ |Real.cos (1 / 20) -
            (1 - (1 / 20 : ℝ) ^ 2 / 2 + (1 / 20) ^ 4 / 24)| +
        |(1 - (1 / 20 : ℝ) ^ 2 / 2 + (1 / 20) ^ 4 / 24) -
            0.9987502603949663| := abs_sub_le _ _ _
    _ ≤ (1 / 20 : ℝ) ^ 6 * (7 / 4320) + 3 / 10 ^ 11 := add_le_add hb h2
    _ ≤ 1e-7 := by norm_num

/-- `sin(1/20)` agrees with the test's expected amplitude to `1e-7`. -/
theorem sin_one_twentieth_bound :
    |Real.sin (1 / 20) - 0.04997916927067834| ≤ 1e-7 := by
  have hb := sin_sixth_bound (x := (1 / 20 : ℝ))
    (by rw [abs_of_pos (by norm_num : (0 : ℝ) < 1 / 20)]; norm_num)
  rw [abs_of_pos (by norm_num : (0 : ℝ) < 1 / 20)] at hb
  have h2 : |((1 / 20 : ℝ) - (1 / 20) ^ 3 / 6 + (1 / 20) ^ 5 / 120) -
      0.04997916927067834| ≤ 1 / 10 ^ 12 :=
    abs_le.mpr (by constructor <;> norm_num)
  calc |Real.sin (1 / 20) - 0.04997916927067834|
      ≤ |Real.sin (1 / 20) -
            ((1 / 20 : ℝ) - (1 / 20) ^ 3 / 6 + (1 / 20) ^ 5 / 120)| +
        |((1 / 20 : ℝ) - (1 / 20) ^ 3 / 6 + (1 / 20) ^ 5 / 120) -
            0.04997916927067834| := abs_sub_le _ _ _
    _ ≤ (1 / 20 : ℝ) ^ 6 * (7 / 4320) + 1 / 10 ^ 12 := add_le_add hb h2
    _ ≤ 1e-7 := by norm_num

theorem xor_pow_cancel (j b : Nat) : j ^^^ 2 ^ b ^^^ 2 ^ b = j := by
  rw [Nat.xor_assoc, Nat.xor_self, Nat.xor_zero]

theorem testBit_xor_pow (j b : Nat) :
    (j ^^^ 2 ^ b).testBit b = !j.testBit b := by
  rw [Nat.testBit_xor, Nat.testBit_two_pow_self]
  cases j.testBit b <;> rfl

/-- Two one-wire gates applied in sequence to the same wire act as their
matrix product applied once. -/
theorem apply1_apply1 (n w : Nat) (m2 m1 : Fin 2 → Fin 2 → ℂ)
    (ψ : Nat → ℂ) :
    apply1 n w m2 (apply1 n w m1 ψ) = apply1 n w (matMul2 m2 m1) ψ := by
  funext i
  simp only [apply1, matMul2, Fin.sum_univ_two]
  by_cases h : i.testBit (wireBit n w) <;>
    simp [h, testBit_xor_pow, xor_pow_cancel] <;> ring

/-- C7: for every wire `w` of an `n`-qubit state, applying PauliX and then
PauliZ to `w` through two named-gate dispatcher calls equals one
direct-matrix application of the test's explicit product matrix
`xz_gate = [[0, 1], [-1, 0]]` to `w` — and in the exact model the two
state vectors are equal outright, not merely within tolerance. -/
theorem C7_pauliX_then_pauliZ_eq_XZ_matrix (n w : Nat) (hw : w < n)
    (ψ : Nat → ℂ) :
    (applyOperation n "PauliX" w false [] ψ).bind
        (fun ψ1 => applyOperation n "PauliZ" w false [] ψ1) =
      some (apply1 n w XZmat ψ) := by
  have _hn : 0 < n := Nat.lt_of_le_of_lt (Nat.zero_le w) hw
  have hmul : matMul2 Zmat Xmat = XZmat := by
    funext r c
    fin_cases r <;> fin_cases c <;>
      simp [matMul2, Fin.sum_univ_two, Xmat, Zmat, XZmat]
  simp only [applyOperation, baseMatrix1, Option.map_some', Option.some_bind,
    Bool.false_eq_true, if_false, Option.some.injEq]
  rw [apply1_apply1, hmul]

/-- Instantiation of `C7_pauliX_then_pauliZ_eq_XZ_matrix` at the one-qubit
basis state, wire 0. -/
theorem C7_pauliX_then_pauliZ_witness :
    0 < 1 ∧
      (applyOperation 1 "PauliX" 0 false [] (initState 1)).bind
          (fun ψ1 => applyOperation 1 "PauliZ" 0 false [] ψ1) =
        some (apply1 1 0 XZmat (initState 1)) :=
  ⟨by decide, C7_pauliX_then_pauliZ_eq_XZ_matrix 1 0 (by decide) (initState 1)⟩

/-- C8: ControlledPhaseShift(θ) on the 3-qubit `|+++⟩` state, with wire
pair (0,1) and with wire pair (1,2): each amplitude whose basis-index bits
at both selected wires are 1 is multiplied by the phase `e^{iθ}`, and every
other amplitude is exactly its pre-application `|+++⟩` value. -/
theorem C8_cphase_touches_only_both_one_amplitudes (θ : ℝ) (i : Fin 8) :
    apply2 3 0 1 (cphaseMat θ) plus3 i.val =
      (if i.val.testBit (wireBit 3 0) ∧ i.val.testBit (wireBit 3 1) then
        Complex.exp (θ * Complex.I) else 1) * plus3 i.val
  ∧ apply2 3 1 2 (cphaseMat θ) plus3 i.val =
      (if i.val.testBit (wireBit 3 1) ∧ i.val.testBit (wireBit 3 2) then
        Complex.exp (θ * Complex.I) else 1) * plus3 i.val := by
  constructor <;> fin_cases i <;>
    simp [apply2, subIdx2, setSub2, cphaseMat, plus3, wireBit,
      Fin.sum_univ_four, Fin.ext_iff, Nat.testBit,
      show ((0 : Fin 4) : ℕ) = 0 from rfl, show ((1 : Fin 4) : ℕ) = 1 from rfl,
      show ((2 : Fin 4) : ℕ) = 2 from rfl, show ((3 : Fin 4) : ℕ) = 3 from rfl]

/-- C6: RX(0.1) applied to the one-qubit basis state `|0⟩` yields amplitudes
`[0.9987502603949663 + 0i, 0 − 0.04997916927067834i]` within `1e-7`;
with `adjoint = true` it yields `[0.9987502603949663 + 0i,
0 + 0.04997916927067834i]` within `1e-7`; and the named-gate dispatcher
`applyOperation "RX"` agrees with the direct `applyRX` call identically,
on every state and adjoint flag. -/
theorem C6_applyRX_tenth_on_zero_state :
    (Complex.abs (applyRX 1 0 false 0.1 (initState 1) 0 -
        ((0.9987502603949663 : ℝ) : ℂ)) ≤ 1e-7
  ∧ Complex.abs (applyRX 1 0 false 0.1 (initState 1) 1 -
        (-((0.04997916927067834 : ℝ) : ℂ) * Complex.I)) ≤ 1e-7)
  ∧ (Complex.abs (applyRX 1 0 true 0.1 (initState 1) 0 -
        ((0.9987502603949663 : ℝ) : ℂ)) ≤ 1e-7
  ∧ Complex.abs (applyRX 1 0 true 0.1 (initState 1) 1 -
        (((0.04997916927067834 : ℝ) : ℂ) * Complex.I)) ≤ 1e-7)
  ∧ ∀ (adj : Bool) (ψ : Nat → ℂ),
      applyOperation 1 "RX" 0 adj [0.1] ψ = some (applyRX 1 0 adj 0.1 ψ) := by
  have hhalf : (0.1 : ℝ) / 2 = 1 / 20 := by norm_num
  have hw : wireBit 1 0 = 0 := rfl
  have t0 : Nat.testBit 0 0 = false := rfl
  have t1 : Nat.testBit 1 0 = true := rfl
  have x0 : (0 : Nat) ^^^ 2 ^ 0 = 1 := rfl
  have x1 : (1 : Nat) ^^^ 2 ^ 0 = 0 := rfl
  have e00 : applyRX 1 0 false 0.1 (initState 1) 0 =
      ((Real.cos (1 / 20) : ℝ) : ℂ) := by
    simp [applyRX, apply1, hw, t0, x0, initState, RXmat, hhalf]
  have e01 : applyRX 1 0 false 0.1 (initState 1) 1 =
      -Complex.I * ((Real.sin (1 / 20) : ℝ) : ℂ) := by
    simp [applyRX, apply1, hw, t1, x1, initState, RXmat, hhalf]
  have e10 : applyRX 1 0 true 0.1 (initState 1) 0 =
      ((Real.cos (1 / 20) : ℝ) : ℂ) := by
    simp [applyRX, apply1, hw, t0, x0, initState, dagger, RXmat, hhalf]
    rw [← Complex.cos_conj, map_inv₀, map_ofNat]
  have e11 : applyRX 1 0 true 0.1 (initState 1) 1 =
      Complex.I * ((Real.sin (1 / 20) : ℝ) : ℂ) := by
    simp [applyRX, apply1, hw, t1, x1, initState, dagger, RXmat, hhalf,
      map_mul, Complex.conj_I]
    rw [← Complex.sin_conj, map_inv₀, map_ofNat]
  have habsI : ∀ a b : ℝ,
      Complex.abs ((a : ℂ) * Complex.I - (b : ℂ) * Complex.I) = |a - b| := by
    intro a b
    rw [← sub_mul, map_mul, Complex.abs_I, mul_one, ← Complex.ofReal_sub,
      Complex.abs_ofReal]
  refine ⟨⟨?_, ?_⟩, ⟨?_, ?_⟩, fun adj ψ => rfl⟩
  · rw [e00, ← Complex.ofReal_sub, Complex.abs_ofReal]
    exact cos_one_twentieth_bound
  · rw [e01]
    have hrw : -Complex.I * ((Real.sin (1 / 20) : ℝ) : ℂ) -
        -((0.04997916927067834 : ℝ) : ℂ) * Complex.I =
        ((-Real.sin (1 / 20) : ℝ) : ℂ) * Complex.I -
          ((-0.04997916927067834 : ℝ) : ℂ) * Complex.I := by
      push_cast
      ring
    rw [hrw, habsI]
    calc |(-Real.sin (1 / 20)) - -0.04997916927067834|
        = |Real.sin (1 / 20) - 0.04997916927067834| := by
          rw [← abs_neg]; ring_nf
      _ ≤ 1e-7 := sin_one_twentieth_bound
  · rw [e10, ← Complex.ofReal_sub, Complex.abs_ofReal]
    exact cos_one_twentieth_bound
  · rw [e11]
    have hrw : Complex.I * ((Real.sin (1 / 20) : ℝ) : ℂ) -
        ((0.04997916927067834 : ℝ) : ℂ) * Complex.I =
        ((Real.sin (1 / 20) : ℝ) : ℂ) * Complex.I -
          ((0.04997916927067834 : ℝ) : ℂ) * Complex.I := by
      ring
    rw [hrw, habsI]
    exact sin_one_twentieth_bound

end Engine

/-- C10: self-assignment (`this == &other`, i.e. `distinct = false`) by copy
or by move leaves every field of the buffer unchanged and issues no device
query and no copy — both operators return immediately on the identity
check. -/
theorem C10_self_assignment_is_identity {α : Type} (b : DataBuffer α)
    (dev : Int) :
    DataBuffer.copyAssign b b false dev = .ok (b, [])
  ∧ DataBuffer.moveAssign b b false dev = .ok (b, b, []) := by
  exact ⟨rfl, rfl⟩

end LightningGPU
